import Mathlib

/-!
Verification of the scrape-job supervisor of the dashboard
(src/dashboard/app.py, the pump loop inside the Scraper tab of main).
Lines are modelled as lists of characters; each regex of the source is
embedded as a deterministic leftmost matcher, which agrees with the
regex engine here because the digit, whitespace and literal parts of
every pattern are over disjoint character classes, so greedy matching
never needs backtracking.
-/

set_option maxHeartbeats 1000000

namespace RedditDash

/-- Decimal digit test: the character class of the digit token of the
source regexes, on the ascii output of the emitter. -/
def isDigitCh (c : Char) : Bool := ('0' ≤ c) && (c ≤ '9')

def digitVal (c : Char) : Nat := c.toNat - '0'.toNat

/-- Whitespace class of the source regexes, ascii subset. -/
def isSpaceCh (c : Char) : Bool :=
  c = ' ' || c = '\t' || c = '\n' || c = '\r' || c = Char.ofNat 11 || c = Char.ofNat 12

/-- Greedy run of digits continuing a number already begun, like the
regex one-or-more-digits token; int of the matched group. -/
def readDigits : Nat → List Char → Nat × List Char
  | acc, [] => (acc, [])
  | acc, c :: cs => if isDigitCh c then readDigits (10 * acc + digitVal c) cs else (acc, c :: cs)

/-- One or more digits at the head of the input, greedy. -/
def takeDigits : List Char → Option (Nat × List Char)
  | [] => none
  | c :: cs => if isDigitCh c then some (readDigits (digitVal c) cs) else none

/-- Zero or more whitespace characters, greedy. -/
def dropSpacesRe (cs : List Char) : List Char := cs.dropWhile isSpaceCh

/-- The needle matches literally at the head of the haystack. -/
def litAt : List Char → List Char → Bool
  | [], _ => true
  | _ :: _, [] => false
  | n :: ns, c :: cs => n == c && litAt ns cs

/-- Substring containment, the semantics of the py operator in on str. -/
def containsSub (needle : List Char) : List Char → Bool
  | [] => litAt needle []
  | c :: cs => litAt needle (c :: cs) || containsSub needle cs

/-- Leftmost match: try the single-position matcher at every suffix,
left to right, like re dot search. -/
def searchWith {α : Type} (f : List Char → Option α) : List Char → Option α
  | [] => f []
  | c :: cs =>
    match f (c :: cs) with
    | some x => some x
    | none => searchWith f cs

/-- Matcher at one position for the pair pattern digits, optional
spaces, slash, optional spaces, digits. -/
def numPairAt (cs : List Char) : Option (Nat × Nat) :=
  match takeDigits cs with
  | none => none
  | some (d1, rest1) =>
    match dropSpacesRe rest1 with
    | '/' :: rest2 =>
      match takeDigits (dropSpacesRe rest2) with
      | none => none
      | some (d2, _) => some (d1, d2)
    | _ => none

/-- Matcher at one position: literal, optional spaces, digits. -/
def litSpNumAt (lit : List Char) (cs : List Char) : Option Nat :=
  if litAt lit cs then
    match takeDigits (dropSpacesRe (cs.drop lit.length)) with
    | some (n, _) => some n
    | none => none
  else none

/-- Matcher at one position: literal then digits immediately. -/
def litNumAt (lit : List Char) (cs : List Char) : Option Nat :=
  if litAt lit cs then
    match takeDigits (cs.drop lit.length) with
    | some (n, _) => some n
    | none => none
  else none

def progressLitC : List Char := "Progress:".data
def slashLit : List Char := "/".data
def savedLit : List Char := "Saved ".data
def savedWord : List Char := "Saved".data
def postsLit : List Char := "posts".data
def commentsLitC : List Char := "Comments:".data
def fetchingLit : List Char := "Fetching comments for:".data
def imagesLitC : List Char := "Images:".data
def videosLitC : List Char := "Videos:".data
def foundWord : List Char := "Found".data
def foundLit : List Char := "Found ".data
def postsTailLit : List Char := " posts".data

/-- Matcher at one position for the batch pattern: the word Found,
a space, digits, then the word posts. -/
def foundAt (cs : List Char) : Option Nat :=
  if litAt foundLit cs then
    match takeDigits (cs.drop foundLit.length) with
    | some (n, rest) => if litAt postsTailLit rest then some n else none
    | none => none
  else none

def searchNumPair : List Char → Option (Nat × Nat) := searchWith numPairAt
def searchSaved : List Char → Option Nat := searchWith (litNumAt savedLit)
def searchComments : List Char → Option Nat := searchWith (litSpNumAt commentsLitC)
def searchImages : List Char → Option Nat := searchWith (litSpNumAt imagesLitC)
def searchVideos : List Char → Option Nat := searchWith (litSpNumAt videosLitC)
def searchFound : List Char → Option Nat := searchWith foundAt

/-- Guard of the progress block: both trigger substrings present. -/
def progressGuard (line : List Char) : Bool :=
  containsSub progressLitC line && containsSub slashLit line

def savedGuard (line : List Char) : Bool :=
  containsSub savedWord line && containsSub postsLit line

def commentsGuard (line : List Char) : Bool := containsSub commentsLitC line

def fetchGuard (line : List Char) : Bool := containsSub fetchingLit line

def imagesGuard (line : List Char) : Bool := containsSub imagesLitC line

def videosGuard (line : List Char) : Bool := containsSub videosLitC line

def foundGuard (line : List Char) : Bool :=
  containsSub foundWord line && containsSub postsLit line

/-- The four counters of the pump loop, ints as in the source. -/
structure JobState where
  posts_count : Int
  comments_count : Int
  images_count : Int
  videos_count : Int
deriving DecidableEq, Repr

def initState : JobState := ⟨0, 0, 0, 0⟩

/-- Widget updates the loop body performs per line; the progress event
carries the pair from which the ratio is computed, the division being
performed only when it is published. -/
inductive Event where
  | progressPub (done total : Nat)
  | postsPub (p : Int)
  | commentsPub (c : Int)
  | commentsApproxPub (c : Int)
  | imagesPub (i : Int)
  | videosPub (v : Int)
  | foundStatusPub (n : Nat)
  | statusPub
deriving DecidableEq, Repr

/-- The Progress block: on a guard hit and a matched pair, posts_count
is assigned the first number, then the ratio of the updated count over
the total is published; a zero total raises inside the division and the
bare except of the block swallows it, so the assignment survives while
the two widget updates are skipped. -/
def progressHandler (s : JobState) (line : List Char) : JobState × List Event :=
  if progressGuard line then
    match searchNumPair line with
    | some (done, total) =>
      let s1 : JobState := { s with posts_count := (done : Int) }
      if total = 0 then (s1, []) else (s1, [Event.progressPub done total])
    | none => (s, [])
  else (s, [])

/-- The Saved block: increments posts_count by the matched count. -/
def savedHandler (s : JobState) (line : List Char) : JobState × List Event :=
  if savedGuard line then
    match searchSaved line with
    | some n =>
      ({ s with posts_count := s.posts_count + (n : Int) },
       [Event.postsPub (s.posts_count + (n : Int))])
    | none => (s, [])
  else (s, [])

/-- The Comments block: overwrites comments_count with the matched
count. -/
def commentsHandler (s : JobState) (line : List Char) : JobState × List Event :=
  if commentsGuard line then
    match searchComments line with
    | some n =>
      ({ s with comments_count := (n : Int) }, [Event.commentsPub (n : Int)])
    | none => (s, [])
  else (s, [])

/-- The Fetching block: unconditionally increments comments_count on
the trigger substring; no numeric payload, no try around it. -/
def fetchingHandler (s : JobState) (line : List Char) : JobState × List Event :=
  if fetchGuard line then
    ({ s with comments_count := s.comments_count + 1 },
     [Event.commentsApproxPub (s.comments_count + 1)])
  else (s, [])

/-- The Images block: overwrites images_count. -/
def imagesHandler (s : JobState) (line : List Char) : JobState × List Event :=
  if imagesGuard line then
    match searchImages line with
    | some n => ({ s with images_count := (n : Int) }, [Event.imagesPub (n : Int)])
    | none => (s, [])
  else (s, [])

/-- The Videos block: overwrites videos_count. -/
def videosHandler (s : JobState) (line : List Char) : JobState × List Event :=
  if videosGuard line then
    match searchVideos line with
    | some n => ({ s with videos_count := (n : Int) }, [Event.videosPub (n : Int)])
    | none => (s, [])
  else (s, [])

/-- The Found block touches no counter, only the status text. Its try
in the source lacks the except clause the seven sibling blocks carry
(a syntax slip); the evident intent, an except-pass like the siblings,
is modelled. -/
def foundEvents (line : List Char) : List Event :=
  if foundGuard line then
    match searchFound line with
    | some n => [Event.foundStatusPub n]
    | none => []
  else []

/-- One pass of the loop body over a decoded line: the seven pattern
blocks in source order, each an independent if, then the per-line
status update. -/
def processLine (s : JobState) (line : List Char) : JobState × List Event :=
  let r1 := progressHandler s line
  let r2 := savedHandler r1.1 line
  let r3 := commentsHandler r2.1 line
  let r4 := fetchingHandler r3.1 line
  let r5 := imagesHandler r4.1 line
  let r6 := videosHandler r5.1 line
  (r6.1, r1.2 ++ r2.2 ++ r3.2 ++ r4.2 ++ r5.2 ++ r6.2 ++ foundEvents line ++ [Event.statusPub])

/-- State component of one loop pass. -/
def step (s : JobState) (line : List Char) : JobState := (processLine s line).1

/-- Loop state: the counters plus the full list of raw lines kept for
the tail displays. -/
structure PumpState where
  js : JobState
  output_lines : List (List Char)
deriving DecidableEq, Repr

def initPump : PumpState := ⟨initState, []⟩

/-- One read of the child stream: a decoded line, or the read raising. -/
inductive StreamItem where
  | line (l : List Char)
  | ioErr
deriving DecidableEq, Repr

inductive Status where
  | Succeeded
  | Failed
deriving DecidableEq, Repr

/-- Terminal result of one supervised run; exit_code is none on the
exception paths, where the return code is never consulted. -/
structure JobOutcome where
  exit_code : Option Int
  status : Status
  tail_output : List (List Char)
deriving DecidableEq, Repr

/-- Telemetry order: one snap per processed line, then the outcome. -/
inductive TraceEv where
  | snap
  | outcome (o : JobOutcome)
deriving DecidableEq, Repr

/-- Loop body at the pump level: append the raw line, then fold it into
the counters. -/
def pumpLine (ps : PumpState) (l : List Char) : PumpState :=
  { js := step ps.js l, output_lines := ps.output_lines ++ [l] }

structure RunRes where
  ps : PumpState
  trace : List TraceEv
  errored : Bool
deriving DecidableEq, Repr

/-- The read loop: lines are pumped in order until end of stream; a
raising read aborts the loop at once, leaving the rest unread. -/
def runStream : PumpState → List StreamItem → RunRes
  | ps, [] => ⟨ps, [], false⟩
  | ps, StreamItem.line l :: rest =>
    let r := runStream (pumpLine ps l) rest
    ⟨r.ps, TraceEv.snap :: r.trace, r.errored⟩
  | ps, StreamItem.ioErr :: _ => ⟨ps, [], true⟩

/-- Last n elements, the py slice from minus n. -/
def lastN {α : Type} (n : Nat) (l : List α) : List α := l.drop (l.length - n)

/-- The whole supervised run: spawn, pump, wait, classify. A spawn
failure or a raising read lands in the broad except, which reports the
exception without any output lines; a normal end of stream waits for
the exit code, zero showing the 15-line display as terminal state,
nonzero additionally printing the last 30 lines. -/
def supervise (spawnOk : Bool) (stream : List StreamItem) (exit_code : Int) :
    JobOutcome × List TraceEv :=
  if spawnOk then
    let r := runStream initPump stream
    if r.errored then
      let o : JobOutcome := ⟨none, Status.Failed, []⟩
      (o, r.trace ++ [TraceEv.outcome o])
    else if exit_code = 0 then
      let o : JobOutcome := ⟨some exit_code, Status.Succeeded, lastN 15 r.ps.output_lines⟩
      (o, r.trace ++ [TraceEv.outcome o])
    else
      let o : JobOutcome := ⟨some exit_code, Status.Failed, lastN 30 r.ps.output_lines⟩
      (o, r.trace ++ [TraceEv.outcome o])
  else
    let o : JobOutcome := ⟨none, Status.Failed, []⟩
    (o, [TraceEv.outcome o])

/-- Modelled from the spec: the LineDecoder of section 4.1 is not in
src — the source delegates chunk reassembly to the runtime readline on
the unbuffered pipe — so the feed and flush of the spec are modelled
here: a buffer holds the partial segment, newline emits it stripped. -/
structure LineDecoder where
  buf : List Char
deriving DecidableEq, Repr

/-- One character of a chunk: newline emits the buffered line, anything
else is buffered (buffer kept reversed). -/
def feedStep (p : LineDecoder × List (List Char)) (c : Char) : LineDecoder × List (List Char) :=
  if c = '\n' then (⟨[]⟩, p.2 ++ [p.1.buf.reverse]) else (⟨c :: p.1.buf⟩, p.2)

/-- Feed one chunk: emits the newline-stripped complete lines in
arrival order, retaining the trailing partial segment. -/
def feed (d : LineDecoder) (chunk : List Char) : LineDecoder × List (List Char) :=
  chunk.foldl feedStep (d, [])

/-- Feed a sequence of chunks, concatenating the emitted lines. -/
def feedAll : LineDecoder → List (List Char) → LineDecoder × List (List Char)
  | d, [] => (d, [])
  | d, ch :: rest =>
    let r := feed d ch
    let r2 := feedAll r.1 rest
    (r2.1, r.2 ++ r2.2)

/-- Stream close: the final partial line if non-empty. -/
def flush (d : LineDecoder) : List (List Char) :=
  if d.buf = [] then [] else [d.buf.reverse]

/-- A list of newline-free lines as one newline-terminated byte run. -/
def encodeLines (ls : List (List Char)) : List Char :=
  (ls.map (fun l => l ++ ['\n'])).flatten

/-- The absolute images signal a line carries, when its block fires. -/
def imagesTotalSig (l : List Char) : Option Nat :=
  if imagesGuard l then searchImages l else none

/-- The absolute videos signal a line carries, when its block fires. -/
def videosTotalSig (l : List Char) : Option Nat :=
  if videosGuard l then searchVideos l else none

theorem progressHandler_posts (s : JobState) (l : List Char) :
    ((progressHandler s l).1).posts_count =
      (if progressGuard l then
        match searchNumPair l with
        | some (d, _) => (d : Int)
        | none => s.posts_count
      else s.posts_count) := by
  simp only [progressHandler]
  repeat' split
  all_goals rfl

theorem progressHandler_comments (s : JobState) (l : List Char) :
    ((progressHandler s l).1).comments_count = s.comments_count := by
  simp only [progressHandler]
  repeat' split
  all_goals rfl

theorem progressHandler_images (s : JobState) (l : List Char) :
    ((progressHandler s l).1).images_count = s.images_count := by
  simp only [progressHandler]
  repeat' split
  all_goals rfl

theorem progressHandler_videos (s : JobState) (l : List Char) :
    ((progressHandler s l).1).videos_count = s.videos_count := by
  simp only [progressHandler]
  repeat' split
  all_goals rfl

theorem savedHandler_posts (s : JobState) (l : List Char) :
    ((savedHandler s l).1).posts_count =
      (if savedGuard l then
        match searchSaved l with
        | some n => s.posts_count + (n : Int)
        | none => s.posts_count
      else s.posts_count) := by
  simp only [savedHandler]
  repeat' split
  all_goals rfl

theorem savedHandler_comments (s : JobState) (l : List Char) :
    ((savedHandler s l).1).comments_count = s.comments_count := by
  simp only [savedHandler]
  repeat' split
  all_goals rfl

theorem savedHandler_images (s : JobState) (l : List Char) :
    ((savedHandler s l).1).images_count = s.images_count := by
  simp only [savedHandler]
  repeat' split
  all_goals rfl

theorem savedHandler_videos (s : JobState) (l : List Char) :
    ((savedHandler s l).1).videos_count = s.videos_count := by
  simp only [savedHandler]
  repeat' split
  all_goals rfl

theorem commentsHandler_comments (s : JobState) (l : List Char) :
    ((commentsHandler s l).1).comments_count =
      (if commentsGuard l then
        match searchComments l with
        | some n => (n : Int)
        | none => s.comments_count
      else s.comments_count) := by
  simp only [commentsHandler]
  repeat' split
  all_goals rfl

theorem commentsHandler_posts (s : JobState) (l : List Char) :
    ((commentsHandler s l).1).posts_count = s.posts_count := by
  simp only [commentsHandler]
  repeat' split
  all_goals rfl

theorem commentsHandler_images (s : JobState) (l : List Char) :
    ((commentsHandler s l).1).images_count = s.images_count := by
  simp only [commentsHandler]
  repeat' split
  all_goals rfl

theorem commentsHandler_videos (s : JobState) (l : List Char) :
    ((commentsHandler s l).1).videos_count = s.videos_count := by
  simp only [commentsHandler]
  repeat' split
  all_goals rfl

theorem fetchingHandler_comments (s : JobState) (l : List Char) :
    ((fetchingHandler s l).1).comments_count =
      (if fetchGuard l then s.comments_count + 1 else s.comments_count) := by
  simp only [fetchingHandler]
  repeat' split
  all_goals rfl

theorem fetchingHandler_posts (s : JobState) (l : List Char) :
    ((fetchingHandler s l).1).posts_count = s.posts_count := by
  simp only [fetchingHandler]
  repeat' split
  all_goals rfl

theorem fetchingHandler_images (s : JobState) (l : List Char) :
    ((fetchingHandler s l).1).images_count = s.images_count := by
  simp only [fetchingHandler]
  repeat' split
  all_goals rfl

theorem fetchingHandler_videos (s : JobState) (l : List Char) :
    ((fetchingHandler s l).1).videos_count = s.videos_count := by
  simp only [fetchingHandler]
  repeat' split
  all_goals rfl

theorem imagesHandler_images (s : JobState) (l : List Char) :
    ((imagesHandler s l).1).images_count =
      (if imagesGuard l then
        match searchImages l with
        | some n => (n : Int)
        | none => s.images_count
      else s.images_count) := by
  simp only [imagesHandler]
  repeat' split
  all_goals rfl

theorem imagesHandler_posts (s : JobState) (l : List Char) :
    ((imagesHandler s l).1).posts_count = s.posts_count := by
  simp only [imagesHandler]
  repeat' split
  all_goals rfl

theorem imagesHandler_comments (s : JobState) (l : List Char) :
    ((imagesHandler s l).1).comments_count = s.comments_count := by
  simp only [imagesHandler]
  repeat' split
  all_goals rfl

theorem imagesHandler_videos (s : JobState) (l : List Char) :
    ((imagesHandler s l).1).videos_count = s.videos_count := by
  simp only [imagesHandler]
  repeat' split
  all_goals rfl

theorem videosHandler_videos (s : JobState) (l : List Char) :
    ((videosHandler s l).1).videos_count =
      (if videosGuard l then
        match searchVideos l with
        | some n => (n : Int)
        | none => s.videos_count
      else s.videos_count) := by
  simp only [videosHandler]
  repeat' split
  all_goals rfl

theorem videosHandler_posts (s : JobState) (l : List Char) :
    ((videosHandler s l).1).posts_count = s.posts_count := by
  simp only [videosHandler]
  repeat' split
  all_goals rfl

theorem videosHandler_comments (s : JobState) (l : List Char) :
    ((videosHandler s l).1).comments_count = s.comments_count := by
  simp only [videosHandler]
  repeat' split
  all_goals rfl

theorem videosHandler_images (s : JobState) (l : List Char) :
    ((videosHandler s l).1).images_count = s.images_count := by
  simp only [videosHandler]
  repeat' split
  all_goals rfl

theorem step_images (s : JobState) (l : List Char) :
    (step s l).images_count =
      (match imagesTotalSig l with
       | some v => (v : Int)
       | none => s.images_count) := by
  simp only [step, processLine, imagesTotalSig]
  rw [videosHandler_images, imagesHandler_images, fetchingHandler_images,
    commentsHandler_images, savedHandler_images, progressHandler_images]
  by_cases h : imagesGuard l <;> simp [h]

theorem step_videos (s : JobState) (l : List Char) :
    (step s l).videos_count =
      (match videosTotalSig l with
       | some v => (v : Int)
       | none => s.videos_count) := by
  simp only [step, processLine, videosTotalSig]
  rw [videosHandler_videos, imagesHandler_videos, fetchingHandler_videos,
    commentsHandler_videos, savedHandler_videos, progressHandler_videos]
  by_cases h : videosGuard l <;> simp [h]

theorem step_comments_absolute (s : JobState) (l : List Char) (n : Nat)
    (hg : commentsGuard l = true) (hs : searchComments l = some n)
    (hf : fetchGuard l = false) :
    (step s l).comments_count = (n : Int) := by
  simp only [step, processLine]
  rw [videosHandler_comments, imagesHandler_comments, fetchingHandler_comments,
    commentsHandler_comments, savedHandler_comments, progressHandler_comments]
  simp [hg, hs, hf]

theorem step_comments_increment (s : JobState) (l : List Char)
    (hf : fetchGuard l = true) (hg : commentsGuard l = false) :
    (step s l).comments_count = s.comments_count + 1 := by
  simp only [step, processLine]
  rw [videosHandler_comments, imagesHandler_comments, fetchingHandler_comments,
    commentsHandler_comments, savedHandler_comments, progressHandler_comments]
  simp [hg, hf]

theorem step_posts_progress (s : JobState) (l : List Char) (d t : Nat)
    (hg : progressGuard l = true) (hp : searchNumPair l = some (d, t))
    (hsg : savedGuard l = false) :
    (step s l).posts_count = (d : Int) := by
  simp only [step, processLine]
  rw [videosHandler_posts, imagesHandler_posts, fetchingHandler_posts,
    commentsHandler_posts, savedHandler_posts, progressHandler_posts]
  simp [hg, hp, hsg]

/-- A line on which every block either misses its trigger or fails its
numeric payload changes no counter. -/
theorem step_unmatched (s : JobState) (l : List Char)
    (h1 : progressGuard l = true → searchNumPair l = none)
    (h2 : savedGuard l = true → searchSaved l = none)
    (h3 : commentsGuard l = true → searchComments l = none)
    (h4 : fetchGuard l = false)
    (h5 : imagesGuard l = true → searchImages l = none)
    (h6 : videosGuard l = true → searchVideos l = none) :
    step s l = s := by
  have hp : (step s l).posts_count = s.posts_count := by
    simp only [step, processLine]
    rw [videosHandler_posts, imagesHandler_posts, fetchingHandler_posts,
      commentsHandler_posts, savedHandler_posts, progressHandler_posts]
    by_cases hg : progressGuard l <;> by_cases hsg : savedGuard l <;> simp_all
  have hc : (step s l).comments_count = s.comments_count := by
    simp only [step, processLine]
    rw [videosHandler_comments, imagesHandler_comments, fetchingHandler_comments,
      commentsHandler_comments, savedHandler_comments, progressHandler_comments]
    by_cases hg : commentsGuard l <;> simp_all
  have hi : (step s l).images_count = s.images_count := by
    rw [step_images]
    by_cases hg : imagesGuard l <;> simp_all [imagesTotalSig]
  have hv : (step s l).videos_count = s.videos_count := by
    rw [step_videos]
    by_cases hg : videosGuard l <;> simp_all [videosTotalSig]
  cases hstep : step s l
  cases s
  simp_all

/-- All four counters non-negative. -/
def NonNegState (s : JobState) : Prop :=
  0 ≤ s.posts_count ∧ 0 ≤ s.comments_count ∧ 0 ≤ s.images_count ∧ 0 ≤ s.videos_count

theorem progressHandler_nonneg (s : JobState) (l : List Char) (h : NonNegState s) :
    NonNegState ((progressHandler s l).1) := by
  obtain ⟨h1, h2, h3, h4⟩ := h
  refine ⟨?_, ?_, ?_, ?_⟩
  · rw [progressHandler_posts]
    repeat' split
    all_goals first
      | assumption
      | exact Int.natCast_nonneg _
      | exact add_nonneg (by assumption) (Int.natCast_nonneg _)
      | omega
  · rw [progressHandler_comments]; exact h2
  · rw [progressHandler_images]; exact h3
  · rw [progressHandler_videos]; exact h4

theorem savedHandler_nonneg (s : JobState) (l : List Char) (h : NonNegState s) :
    NonNegState ((savedHandler s l).1) := by
  obtain ⟨h1, h2, h3, h4⟩ := h
  refine ⟨?_, ?_, ?_, ?_⟩
  · rw [savedHandler_posts]
    repeat' split
    all_goals first
      | assumption
      | exact Int.natCast_nonneg _
      | exact add_nonneg (by assumption) (Int.natCast_nonneg _)
      | omega
  · rw [savedHandler_comments]; exact h2
  · rw [savedHandler_images]; exact h3
  · rw [savedHandler_videos]; exact h4

theorem commentsHandler_nonneg (s : JobState) (l : List Char) (h : NonNegState s) :
    NonNegState ((commentsHandler s l).1) := by
  obtain ⟨h1, h2, h3, h4⟩ := h
  refine ⟨?_, ?_, ?_, ?_⟩
  · rw [commentsHandler_posts]; exact h1
  · rw [commentsHandler_comments]
    repeat' split
    all_goals first
      | assumption
      | exact Int.natCast_nonneg _
      | exact add_nonneg (by assumption) (Int.natCast_nonneg _)
      | omega
  · rw [commentsHandler_images]; exact h3
  · rw [commentsHandler_videos]; exact h4

theorem fetchingHandler_nonneg (s : JobState) (l : List Char) (h : NonNegState s) :
    NonNegState ((fetchingHandler s l).1) := by
  obtain ⟨h1, h2, h3, h4⟩ := h
  refine ⟨?_, ?_, ?_, ?_⟩
  · rw [fetchingHandler_posts]; exact h1
  · rw [fetchingHandler_comments]
    repeat' split
    all_goals first
      | assumption
      | exact Int.natCast_nonneg _
      | exact add_nonneg (by assumption) (Int.natCast_nonneg _)
      | omega
  · rw [fetchingHandler_images]; exact h3
  · rw [fetchingHandler_videos]; exact h4

theorem imagesHandler_nonneg (s : JobState) (l : List Char) (h : NonNegState s) :
    NonNegState ((imagesHandler s l).1) := by
  obtain ⟨h1, h2, h3, h4⟩ := h
  refine ⟨?_, ?_, ?_, ?_⟩
  · rw [imagesHandler_posts]; exact h1
  · rw [imagesHandler_comments]; exact h2
  · rw [imagesHandler_images]
    repeat' split
    all_goals first
      | assumption
      | exact Int.natCast_nonneg _
      | exact add_nonneg (by assumption) (Int.natCast_nonneg _)
      | omega
  · rw [imagesHandler_videos]; exact h4

theorem videosHandler_nonneg (s : JobState) (l : List Char) (h : NonNegState s) :
    NonNegState ((videosHandler s l).1) := by
  obtain ⟨h1, h2, h3, h4⟩ := h
  refine ⟨?_, ?_, ?_, ?_⟩
  · rw [videosHandler_posts]; exact h1
  · rw [videosHandler_comments]; exact h2
  · rw [videosHandler_images]; exact h3
  · rw [videosHandler_videos]
    repeat' split
    all_goals first
      | assumption
      | exact Int.natCast_nonneg _
      | exact add_nonneg (by assumption) (Int.natCast_nonneg _)
      | omega

theorem step_nonneg (s : JobState) (l : List Char) (h : NonNegState s) :
    NonNegState (step s l) := by
  simp only [step, processLine]
  exact videosHandler_nonneg _ _ (imagesHandler_nonneg _ _ (fetchingHandler_nonneg _ _
    (commentsHandler_nonneg _ _ (savedHandler_nonneg _ _ (progressHandler_nonneg _ _ h)))))

theorem foldl_step_nonneg (s : JobState) (lines : List (List Char)) (h : NonNegState s) :
    NonNegState (List.foldl step s lines) := by
  induction lines generalizing s with
  | nil => exact h
  | cons l ls ih => exact ih _ (step_nonneg _ _ h)

/-- On a matched pair with a zero total, the Progress block keeps the
assignment to posts_count and publishes nothing. -/
theorem progressHandler_zero_total (s : JobState) (l : List Char) (d : Nat)
    (hg : progressGuard l = true) (hp : searchNumPair l = some (d, 0)) :
    progressHandler s l = ({ s with posts_count := (d : Int) }, []) := by
  simp [progressHandler, hg, hp]

theorem savedHandler_no_progress_ev (s : JobState) (l : List Char) :
    ∀ e ∈ (savedHandler s l).2, ∀ d t, e ≠ Event.progressPub d t := by
  simp only [savedHandler]
  repeat' split
  all_goals simp

theorem commentsHandler_no_progress_ev (s : JobState) (l : List Char) :
    ∀ e ∈ (commentsHandler s l).2, ∀ d t, e ≠ Event.progressPub d t := by
  simp only [commentsHandler]
  repeat' split
  all_goals simp

theorem fetchingHandler_no_progress_ev (s : JobState) (l : List Char) :
    ∀ e ∈ (fetchingHandler s l).2, ∀ d t, e ≠ Event.progressPub d t := by
  simp only [fetchingHandler]
  repeat' split
  all_goals simp

theorem imagesHandler_no_progress_ev (s : JobState) (l : List Char) :
    ∀ e ∈ (imagesHandler s l).2, ∀ d t, e ≠ Event.progressPub d t := by
  simp only [imagesHandler]
  repeat' split
  all_goals simp

theorem videosHandler_no_progress_ev (s : JobState) (l : List Char) :
    ∀ e ∈ (videosHandler s l).2, ∀ d t, e ≠ Event.progressPub d t := by
  simp only [videosHandler]
  repeat' split
  all_goals simp

theorem foundEvents_no_progress_ev (l : List Char) :
    ∀ e ∈ foundEvents l, ∀ d t, e ≠ Event.progressPub d t := by
  simp only [foundEvents]
  repeat' split
  all_goals simp

/-- With a zero total, no progress publication appears among the
events of the whole line pass. -/
theorem processLine_zero_total_no_pub (s : JobState) (l : List Char) (d : Nat)
    (hg : progressGuard l = true) (hp : searchNumPair l = some (d, 0)) :
    ∀ d2 t2, Event.progressPub d2 t2 ∉ (processLine s l).2 := by
  intro d2 t2 hmem
  have ha := progressHandler_zero_total s l d hg hp
  simp only [processLine, ha] at hmem
  simp only [List.nil_append, List.mem_append, List.mem_singleton] at hmem
  rcases hmem with ((((((h | h) | h) | h) | h) | h) | h)
  · exact savedHandler_no_progress_ev _ _ _ h d2 t2 rfl
  · exact commentsHandler_no_progress_ev _ _ _ h d2 t2 rfl
  · exact fetchingHandler_no_progress_ev _ _ _ h d2 t2 rfl
  · exact imagesHandler_no_progress_ev _ _ _ h d2 t2 rfl
  · exact videosHandler_no_progress_ev _ _ _ h d2 t2 rfl
  · exact foundEvents_no_progress_ev _ _ h d2 t2 rfl
  · simp at h

/-- Outcome test on a telemetry event. -/
def isOutcomeEv : TraceEv → Bool
  | TraceEv.outcome _ => true
  | TraceEv.snap => false

/-- An error-free stream of lines is pumped in full: the counters fold
over the lines, every line lands in the output buffer in order, and one
snap is published per line. -/
theorem runStream_lines (lines : List (List Char)) (ps : PumpState) :
    runStream ps (lines.map StreamItem.line) =
      ⟨⟨List.foldl step ps.js lines, ps.output_lines ++ lines⟩,
        List.replicate lines.length TraceEv.snap, false⟩ := by
  induction lines generalizing ps with
  | nil => simp [runStream]
  | cons l ls ih =>
    simp only [List.map_cons, runStream, ih, pumpLine, List.foldl_cons, List.length_cons,
      List.replicate_succ, List.append_assoc, List.singleton_append]

/-- A raising read aborts the loop at once: the lines before it are
pumped, the rest of the stream is never touched. -/
theorem runStream_err (lines : List (List Char)) (post : List StreamItem) (ps : PumpState) :
    runStream ps (lines.map StreamItem.line ++ StreamItem.ioErr :: post) =
      ⟨⟨List.foldl step ps.js lines, ps.output_lines ++ lines⟩,
        List.replicate lines.length TraceEv.snap, true⟩ := by
  induction lines generalizing ps with
  | nil => simp [runStream]
  | cons l ls ih =>
    simp only [List.map_cons, List.cons_append, runStream, List.append_eq, ih, pumpLine,
      List.foldl_cons, List.length_cons, List.replicate_succ, List.append_assoc,
      List.singleton_append]
    simp

/-- The read loop publishes snaps only; the outcome comes later. -/
theorem runStream_trace_snap (stream : List StreamItem) (ps : PumpState) :
    ∀ e ∈ (runStream ps stream).trace, e = TraceEv.snap := by
  induction stream generalizing ps with
  | nil => simp [runStream]
  | cons item rest ih =>
    cases item with
    | line l =>
      intro e he
      simp only [runStream, List.mem_cons] at he
      rcases he with he | he
      · exact he
      · exact ih _ e he
    | ioErr => simp [runStream]

/-- Every path of a supervised run ends in exactly one outcome, with
only snaps before it. -/
theorem supervise_trace_shape (ok : Bool) (stream : List StreamItem) (ec : Int) :
    ∃ pre, (supervise ok stream ec).2 = pre ++ [TraceEv.outcome (supervise ok stream ec).1] ∧
      ∀ e ∈ pre, e = TraceEv.snap := by
  cases ok with
  | false => exact ⟨[], rfl, by simp⟩
  | true =>
    simp only [supervise, if_true]
    by_cases he : (runStream initPump stream).errored
    · refine ⟨(runStream initPump stream).trace, ?_, runStream_trace_snap stream initPump⟩
      simp [he]
    · by_cases hec : ec = 0
      · refine ⟨(runStream initPump stream).trace, ?_, runStream_trace_snap stream initPump⟩
        simp [he, hec]
      · refine ⟨(runStream initPump stream).trace, ?_, runStream_trace_snap stream initPump⟩
        simp [he, hec]

/-- Accumulator form of one chunk fold of the decoder. -/
theorem feed_go (cs : List Char) (d : LineDecoder) (out : List (List Char)) :
    List.foldl feedStep (d, out) cs =
      ((List.foldl feedStep (d, []) cs).1, out ++ (List.foldl feedStep (d, []) cs).2) := by
  induction cs generalizing d out with
  | nil => simp
  | cons c cs ih =>
    simp only [List.foldl_cons]
    by_cases h : c = '\n'
    · rw [feedStep, if_pos h, feedStep, if_pos h]
      rw [ih ⟨[]⟩ (out ++ [d.buf.reverse]), ih ⟨[]⟩ ([] ++ [d.buf.reverse])]
      simp
    · rw [feedStep, if_neg h, feedStep, if_neg h]
      exact ih _ _

/-- Feeding a concatenation equals feeding the parts in sequence. -/
theorem feed_append (d : LineDecoder) (a b : List Char) :
    feed d (a ++ b) =
      ((feed (feed d a).1 b).1, (feed d a).2 ++ (feed (feed d a).1 b).2) := by
  simp only [feed, List.foldl_append]
  rw [feed_go b (List.foldl feedStep (d, []) a).1 (List.foldl feedStep (d, []) a).2]

/-- Chunk boundaries are invisible: feeding the chunks one by one is
feeding their concatenation. -/
theorem feedAll_flatten (chunks : List (List Char)) (d : LineDecoder) :
    feedAll d chunks = feed d chunks.flatten := by
  induction chunks generalizing d with
  | nil => simp [feedAll, feed]
  | cons ch rest ih =>
    simp only [feedAll, List.flatten_cons, ih, feed_append]

/-- A newline-free chunk only grows the partial-line buffer. -/
theorem feed_no_newline (l : List Char) (b : List Char) (hl : '\n' ∉ l) :
    feed ⟨b⟩ l = (⟨l.reverse ++ b⟩, []) := by
  induction l generalizing b with
  | nil => simp [feed]
  | cons c cs ih =>
    have hc : c ≠ '\n' := fun h => hl (h ▸ List.mem_cons_self c cs)
    have hcs : '\n' ∉ cs := fun h => hl (List.mem_cons_of_mem c h)
    simp only [feed, List.foldl_cons, feedStep, if_neg hc]
    have := ih (c :: b) hcs
    simp only [feed] at this
    rw [this]
    simp

/-- A newline at the head emits the buffered line and resets. -/
theorem feed_newline_cons (b : List Char) (cs : List Char) :
    feed ⟨b⟩ ('\n' :: cs) = ((feed ⟨[]⟩ cs).1, b.reverse :: (feed ⟨[]⟩ cs).2) := by
  simp only [feed, List.foldl_cons]
  have hstep : feedStep (⟨b⟩, ([] : List (List Char))) '\n' = (⟨[]⟩, [b.reverse]) := by
    simp [feedStep]
  rw [hstep, feed_go]
  simp

/-- Feeding the encoding of newline-free lines from an empty buffer
emits exactly those lines and leaves the buffer empty. -/
theorem feed_encode (ls : List (List Char)) (h : ∀ l ∈ ls, '\n' ∉ l) :
    feed ⟨[]⟩ (encodeLines ls) = (⟨[]⟩, ls) := by
  induction ls with
  | nil => simp [encodeLines, feed]
  | cons l rest ih =>
    have hl : '\n' ∉ l := h l (List.mem_cons_self l rest)
    have hrest : ∀ x ∈ rest, '\n' ∉ x := fun x hx => h x (List.mem_cons_of_mem l hx)
    have henc : encodeLines (l :: rest) = l ++ ('\n' :: encodeLines rest) := by
      simp [encodeLines]
    rw [henc, feed_append, feed_no_newline l [] hl]
    simp only [List.append_nil]
    rw [feed_newline_cons, ih hrest]
    simp

/-- The final images counter is the payload of the last firing Images
block over the line sequence. -/
theorem foldl_step_images (s : JobState) (lines : List (List Char)) :
    (List.foldl step s lines).images_count =
      (match (lines.filterMap imagesTotalSig).getLast? with
       | some v => (v : Int)
       | none => s.images_count) := by
  induction lines generalizing s with
  | nil => simp
  | cons l ls ih =>
    rw [List.foldl_cons, ih]
    cases hsig : imagesTotalSig l with
    | none =>
      rw [List.filterMap_cons_none hsig]
      cases hX : (ls.filterMap imagesTotalSig).getLast? <;>
        simp [hX, step_images, hsig]
    | some v =>
      rw [List.filterMap_cons_some hsig]
      cases hrest : ls.filterMap imagesTotalSig with
      | nil => simp [hrest, step_images, hsig]
      | cons a as =>
        rw [List.getLast?_cons_cons]
        cases hg : (a :: as).getLast? with
        | none => simp at hg
        | some w => rfl

/-- The final videos counter is the payload of the last firing Videos
block over the line sequence. -/
theorem foldl_step_videos (s : JobState) (lines : List (List Char)) :
    (List.foldl step s lines).videos_count =
      (match (lines.filterMap videosTotalSig).getLast? with
       | some v => (v : Int)
       | none => s.videos_count) := by
  induction lines generalizing s with
  | nil => simp
  | cons l ls ih =>
    rw [List.foldl_cons, ih]
    cases hsig : videosTotalSig l with
    | none =>
      rw [List.filterMap_cons_none hsig]
      cases hX : (ls.filterMap videosTotalSig).getLast? <;>
        simp [hX, step_videos, hsig]
    | some v =>
      rw [List.filterMap_cons_some hsig]
      cases hrest : ls.filterMap videosTotalSig with
      | nil => simp [hrest, step_videos, hsig]
      | cons a as =>
        rw [List.getLast?_cons_cons]
        cases hg : (a :: as).getLast? with
        | none => simp at hg
        | some w => rfl

/-- Normal termination: the outcome of an error-free run classifies
the exit code and tails the pumped lines. -/
theorem supervise_lines_fst (lines : List (List Char)) (ec : Int) :
    (supervise true (lines.map StreamItem.line) ec).1 =
      if ec = 0 then ⟨some ec, Status.Succeeded, lastN 15 lines⟩
      else ⟨some ec, Status.Failed, lastN 30 lines⟩ := by
  simp only [supervise, if_true]
  rw [runStream_lines]
  by_cases hec : ec = 0 <;> simp [hec, initPump]

def scenarioA : List (List Char) :=
  [("Progress: 5/100 posts").data, ("Progress: 10/100 posts").data]

def scenarioB : List (List Char) :=
  [("Images: 3").data, ("Videos: 1").data, ("Images: 7").data]

def scenarioCLine : List Char := ("Comments: notanumber").data

def scenarioD : List (List Char) :=
  (List.range 40).map (fun i => ("noise ").data ++ (Nat.repr i).data)

def multiTriggerLine : List Char := ("Progress: 2/10 Images: 3").data

def commentsFiveLine : List Char := ("Comments: 5").data

def fetchingLine : List Char := ("Fetching comments for: post").data

def zeroTotalLine : List Char := ("Progress: 5/0").data

def zeroTotalImagesLine : List Char := ("Progress: 5/0 Images: 4").data

def lineAlpha : List Char := ("alpha").data

def lineBeta : List Char := ("beta").data

/-- A stream failing on the third read, after two good lines. -/
def errStream : List StreamItem :=
  [StreamItem.line lineAlpha, StreamItem.line lineBeta, StreamItem.ioErr]

def chunksW : List (List Char) := [("ab").data, ("c\nd").data, ("e\n").data]

def linesW : List (List Char) := [("abc").data, ("de").data]

/-- A run of Fetching lines increments the comments counter once per
line, unconditionally. -/
theorem foldl_fetch_replicate (k : Nat) (s : JobState) :
    (List.foldl step s (List.replicate k fetchingLine)).comments_count
      = s.comments_count + (k : Int) := by
  induction k generalizing s with
  | zero => simp
  | succ n ih =>
    rw [List.replicate_succ, List.foldl_cons, ih]
    rw [step_comments_increment s fetchingLine (by decide) (by decide)]
    push_cast
    ring

/-- C1 counterexample: the concrete line matches the Progress pattern,
the earliest, yet the later Images block also fires on it and changes
images_count; the claim that only the earliest-matching pattern's
counter is affected is false on the code. -/
theorem c1_first_match_counterexample :
    (progressGuard multiTriggerLine = true ∧ imagesGuard multiTriggerLine = true ∧
      (step initState multiTriggerLine).posts_count = 2) ∧
    ¬ (step initState multiTriggerLine).images_count = initState.images_count := by
  decide

/-- C1 (amended): the pattern blocks are independent ifs tried in fixed
source order, not first-match-wins: a line matching both the Progress
pattern and the later Images pattern, and not the Saved pattern, has
its posts_count assigned by the Progress block and its images_count
overwritten by the Images block on the same line. -/
theorem c1_independent_blocks (s : JobState) (l : List Char) (d t v : Nat)
    (hg : progressGuard l = true) (hp : searchNumPair l = some (d, t))
    (hsg : savedGuard l = false) (hig : imagesGuard l = true)
    (his : searchImages l = some v) :
    (step s l).posts_count = (d : Int) ∧ (step s l).images_count = (v : Int) := by
  refine ⟨step_posts_progress s l d t hg hp hsg, ?_⟩
  rw [step_images]
  simp [imagesTotalSig, hig, his]

/-- C1 witness: the amended statement at the concrete two-trigger
line. -/
theorem c1_independent_blocks_witness :
    (step initState multiTriggerLine).posts_count = 2 ∧
    (step initState multiTriggerLine).images_count = 3 :=
  c1_independent_blocks initState multiTriggerLine 2 10 3 (by decide) (by decide)
    (by decide) (by decide) (by decide)

/-- C2 counterexample: an absolute Comments line setting the counter to
5 followed by one Fetching line leaves comments_count at 6, not at the
absolute value 5 the claim demands. -/
theorem c2_suppression_counterexample :
    ¬ (List.foldl step initState [commentsFiveLine, fetchingLine]).comments_count = 5 := by
  decide

/-- C2 (amended): the code has no has-absolute-comments flag: after an
absolute Comments line setting comments_count to 5, every later
Fetching line still increments it, so k such lines end at 5 + k. -/
theorem c2_increments_never_suppressed (k : Nat) (s : JobState) :
    (List.foldl step s (commentsFiveLine :: List.replicate k fetchingLine)).comments_count
      = 5 + (k : Int) := by
  rw [List.foldl_cons, foldl_fetch_replicate k _,
    step_comments_absolute s commentsFiveLine 5 (by decide) (by decide) (by decide)]
  norm_cast

/-- C3: after end of stream the exit code classifies the run — zero
gives Succeeded with the last 15 lines as tail, nonzero gives Failed
with the last 30, in arrival order; scenario A yields posts 10,
Succeeded and a tail of both lines; scenario D, 40 unmatched lines with
exit 2, yields Failed, exit 2 and the last 30 lines in order. -/
theorem c3_exit_classification :
    (∀ (lines : List (List Char)) (ec : Int),
      (supervise true (lines.map StreamItem.line) ec).1 =
        if ec = 0 then ⟨some ec, Status.Succeeded, lastN 15 lines⟩
        else ⟨some ec, Status.Failed, lastN 30 lines⟩) ∧
    ((supervise true (scenarioA.map StreamItem.line) 0).1 =
        ⟨some 0, Status.Succeeded, scenarioA⟩ ∧
      scenarioA.length = 2 ∧
      (List.foldl step initState scenarioA).posts_count = 10) ∧
    ((supervise true (scenarioD.map StreamItem.line) 2).1 =
        ⟨some 2, Status.Failed, List.drop 10 scenarioD⟩ ∧
      scenarioD.length = 40 ∧
      List.foldl step initState scenarioD = initState) :=
  ⟨supervise_lines_fst, ⟨by decide, by decide, by decide⟩, by decide, by decide, by decide⟩

/-- C4: line decoding is invariant under re-chunking: for any split
into chunks whose concatenation encodes a list of newline-free,
newline-terminated lines, feeding the chunks emits exactly those lines
in order and leaves an empty buffer, so flush adds nothing. -/
theorem c4_rechunking_invariant (chunks ls : List (List Char))
    (h : ∀ l ∈ ls, '\n' ∉ l) (henc : chunks.flatten = encodeLines ls) :
    feedAll ⟨[]⟩ chunks = (⟨[]⟩, ls) := by
  rw [feedAll_flatten, henc, feed_encode ls h]

/-- C4 witness: three chunks splitting two lines mid-line decode to
exactly those two lines. -/
theorem c4_rechunking_invariant_witness :
    feedAll ⟨[]⟩ chunksW = (⟨[]⟩, linesW) :=
  c4_rechunking_invariant chunksW linesW (by decide) (by decide)

/-- C5: every supervised run publishes exactly one outcome event, and
it is the last telemetry event, so no snapshot follows it. -/
theorem c5_single_outcome (ok : Bool) (stream : List StreamItem) (ec : Int) :
    ((supervise ok stream ec).2.filter isOutcomeEv).length = 1 ∧
    (supervise ok stream ec).2.getLast? =
      some (TraceEv.outcome (supervise ok stream ec).1) := by
  obtain ⟨pre, htr, hsnap⟩ := supervise_trace_shape ok stream ec
  constructor
  · rw [htr, List.filter_append]
    have hpre : pre.filter isOutcomeEv = [] := by
      rw [List.filter_eq_nil_iff]
      intro a ha
      rw [hsnap a ha]
      simp [isOutcomeEv]
    rw [hpre]
    simp [isOutcomeEv]
  · rw [htr, List.getLast?_concat]

/-- C6: a line whose trigger substrings match but whose numeric
payloads all fail to parse changes no counter, and supervision
continues past it: the Comments-notanumber scenario leaves every
counter at zero and the run still reaches its outcome. -/
theorem c6_malformed_payload_unmatched :
    (∀ (s : JobState) (l : List Char),
      (progressGuard l = true → searchNumPair l = none) →
      (savedGuard l = true → searchSaved l = none) →
      (commentsGuard l = true → searchComments l = none) →
      fetchGuard l = false →
      (imagesGuard l = true → searchImages l = none) →
      (videosGuard l = true → searchVideos l = none) →
      step s l = s) ∧
    (commentsGuard scenarioCLine = true ∧ searchComments scenarioCLine = none ∧
      step initState scenarioCLine = initState) ∧
    (supervise true [StreamItem.line scenarioCLine] 0).2 =
      [TraceEv.snap, TraceEv.outcome (supervise true [StreamItem.line scenarioCLine] 0).1] :=
  ⟨fun s l h1 h2 h3 h4 h5 h6 => step_unmatched s l h1 h2 h3 h4 h5 h6,
    ⟨by decide, by decide, by decide⟩, by decide⟩

/-- C6 witness: the general unmatched-line statement applied to the
Comments-notanumber line. -/
theorem c6_malformed_payload_unmatched_witness :
    step initState scenarioCLine = initState :=
  c6_malformed_payload_unmatched.1 initState scenarioCLine (by decide) (by decide)
    (by decide) (by decide) (by decide) (by decide)

/-- C7: absolute signals overwrite in arrival order: after any line
sequence each absolutely-set counter equals the payload of the last
firing absolute block for it, and scenario B ends with images 7 and
videos 1. -/
theorem c7_absolute_overwrite_order :
    (∀ (s : JobState) (lines : List (List Char)),
      (List.foldl step s lines).images_count =
        (match (lines.filterMap imagesTotalSig).getLast? with
         | some v => (v : Int)
         | none => s.images_count) ∧
      (List.foldl step s lines).videos_count =
        (match (lines.filterMap videosTotalSig).getLast? with
         | some v => (v : Int)
         | none => s.videos_count)) ∧
    ((List.foldl step initState scenarioB).images_count = 7 ∧
     (List.foldl step initState scenarioB).videos_count = 1) :=
  ⟨fun s lines => ⟨foldl_step_images s lines, foldl_step_videos s lines⟩,
    by decide, by decide⟩

/-- C8 counterexample: a stream erroring after two pumped lines yields
a Failed outcome whose tail is empty; the claim that the outcome
carries the accumulated lines is false on the code, whose broad except
reports the exception without any output lines. -/
theorem c8_accumulated_tail_counterexample :
    (supervise true errStream 0).1.status = Status.Failed ∧
    ¬ (supervise true errStream 0).1.tail_output = [lineAlpha, lineBeta] := by
  decide

/-- C8 (amended): a spawn failure yields an immediate Failed outcome
with an empty tail; a raising read ends the loop early and likewise
yields a Failed outcome with an empty tail, the pumped lines not being
attached to it. -/
theorem c8_error_paths :
    (∀ (stream : List StreamItem) (ec : Int),
      supervise false stream ec =
        (⟨none, Status.Failed, []⟩, [TraceEv.outcome ⟨none, Status.Failed, []⟩])) ∧
    (∀ (lines : List (List Char)) (post : List StreamItem) (ec : Int),
      supervise true (lines.map StreamItem.line ++ StreamItem.ioErr :: post) ec =
        (⟨none, Status.Failed, []⟩,
         List.replicate lines.length TraceEv.snap ++
           [TraceEv.outcome ⟨none, Status.Failed, []⟩])) := by
  constructor
  · intro stream ec
    rfl
  · intro lines post ec
    simp only [supervise, if_true]
    rw [runStream_err]
    simp

/-- C9: from the all-zero initial state, after any line sequence every
counter is non-negative. -/
theorem c9_counters_nonneg (lines : List (List Char)) :
    NonNegState (List.foldl step initState lines) :=
  foldl_step_nonneg initState lines ⟨le_refl 0, le_refl 0, le_refl 0, le_refl 0⟩

/-- C10: a Progress line with a zero total does not fail supervision:
posts_count is assigned the parsed done value before the ratio
division raises, the per-block except swallows the raise so only that
line's progress publications are skipped, and the loop continues with
the later blocks and the next line. -/
theorem c10_zero_total_guarded :
    (∀ (s : JobState) (l : List Char) (d : Nat),
      progressGuard l = true → searchNumPair l = some (d, 0) →
      progressHandler s l = ({ s with posts_count := (d : Int) }, []) ∧
      (∀ d2 t2, Event.progressPub d2 t2 ∉ (processLine s l).2)) ∧
    (step initState zeroTotalImagesLine =
      { posts_count := 5, comments_count := 0, images_count := 4, videos_count := 0 }) ∧
    (supervise true [StreamItem.line zeroTotalLine] 0).2 =
      [TraceEv.snap, TraceEv.outcome (supervise true [StreamItem.line zeroTotalLine] 0).1] :=
  ⟨fun s l d hg hp => ⟨progressHandler_zero_total s l d hg hp,
      processLine_zero_total_no_pub s l d hg hp⟩,
    by decide, by decide⟩

/-- C10 witness: the zero-total line keeps the assignment and publishes
nothing. -/
theorem c10_zero_total_guarded_witness :
    progressHandler initState zeroTotalLine = ({ initState with posts_count := 5 }, []) :=
  (c10_zero_total_guarded.1 initState zeroTotalLine 5 (by decide) (by decide)).1

end RedditDash
